import Mathlib

/-!
# Verification of the trease-backend isometric grid compositor and filter engine

Shallow embedding of `src/core/grid.ts` and `src/core/filters.ts`.

Modelling conventions:
* JavaScript `number` arithmetic is modelled by exact rationals (`ℚ`);
  decimal literals such as `0.299` or `2.55` are taken at their decimal
  value (`299/1000`, `51/20`).
* `Math.round` is modelled by `jsRound` (floor of `q + 1/2`, i.e. the
  half-toward-positive-infinity rounding that `Math.round` performs).
* Loop indices and byte-valued channel samples are `ℕ`; quantities that may
  go negative (`rightmost = -1`, pixel coordinates) are `ℤ`.
* `Math.sin`/`Math.sqrt` are transcendental; they are passed as abstract
  function parameters.  `sine x` stands for `Math.sin (Math.PI * x)` (the
  factor `π` of the source's phase `t·π·2·f` is absorbed into the abstract
  function, keeping all remaining arithmetic rational).
-/

set_option allowUnsafeReducibility true
attribute [local semireducible] Rat.add Rat.sub Rat.mul Rat.inv Rat.div Rat.ofScientific

/-- `export const SCALE = 4` (grid.ts). -/
def SCALE : ℚ := 4

/-- The static fields of `GRID_CONFIG` (grid.ts).  The `gridSize` /
`canvasWidth` / `canvasHeight` fields are mutable runtime state set by
callers and do not enter the functions verified here. -/
structure GridConfigT where
  tileWidth : ℚ
  grassHeight : ℚ
  soilHeight : ℚ

/-- `GRID_CONFIG = { tileWidth: 100*SCALE, grassHeight: 15*SCALE, soilHeight: 40*SCALE }`. -/
def GRID_CONFIG : GridConfigT :=
  { tileWidth := 100 * SCALE, grassHeight := 15 * SCALE, soilHeight := 40 * SCALE }

/-- `Math.round`: rounds half toward positive infinity. -/
def jsRound (q : ℚ) : ℤ := (q + 1/2).floor

/-- `interface GridPosition` (grid.ts).  `pixelX`/`pixelY` are stored after
`Math.round`, hence integers. -/
structure GridPosition where
  gridX : ℕ
  gridY : ℕ
  pixelX : ℤ
  pixelY : ℤ
deriving DecidableEq

/-- `calculateCanvasDimensions` (grid.ts, lines 394–401). -/
def calculateCanvasDimensions (gridSize : ℤ) : ℚ × ℚ :=
  let totalGridWidth : ℚ := (gridSize * 2 : ℤ) * (GRID_CONFIG.tileWidth / 2)
  let calculatedWidth : ℚ := totalGridWidth + 100 * SCALE
  let calculatedHeight : ℚ :=
    (gridSize : ℚ) * (GRID_CONFIG.tileWidth / 2)
      + (GRID_CONFIG.soilHeight + GRID_CONFIG.grassHeight) * 2 + 200 * SCALE
  let canvasSize := max calculatedWidth calculatedHeight
  (canvasSize, canvasSize)

/-- `generateGridPositions` (grid.ts, lines 406–427).  The JS
`for (let y = 0; y < gridSize; y++)` loop runs `gridSize.toNat` times
(zero times for non-positive `gridSize`). -/
def generateGridPositions (gridSize : ℤ) (canvasWidth : ℚ) : List GridPosition :=
  let startX : ℚ := canvasWidth / 2
  let startY : ℚ := 150 * SCALE
  (List.range gridSize.toNat).flatMap (fun (y : ℕ) =>
    (List.range gridSize.toNat).map (fun (x : ℕ) =>
      let isoX : ℚ := ((x : ℚ) - (y : ℚ)) * (GRID_CONFIG.tileWidth / 2)
      let isoY : ℚ := ((x : ℚ) + (y : ℚ)) * (GRID_CONFIG.tileWidth / 4)
      let pixelX := startX + isoX
      let pixelY := startY + isoY + (GRID_CONFIG.tileWidth / 4)
      { gridX := x, gridY := y, pixelX := jsRound pixelX, pixelY := jsRound pixelY }))

/-- `sortPositionsForRendering` (grid.ts, lines 432–436).
`Array.prototype.sort` is a stable sort (ECMAScript 2019); with the
consistent comparator `(a.gridY+a.gridX) - (b.gridY+b.gridX)` its result is
the stable ascending sort by the key `gridY + gridX`, which `List.mergeSort`
with the corresponding boolean order implements. -/
def sortPositionsForRendering (positions : List GridPosition) : List GridPosition :=
  positions.mergeSort (fun a b => a.gridY + a.gridX ≤ b.gridY + b.gridX)

/-! ## Wavy seam geometry (`drawIsoBlock` and helpers, grid.ts) -/

/-- A 2-D point `{x, y}`. -/
def Point : Type := ℚ × ℚ

/-- `generateWavyEdge` (grid.ts, lines 183–222).  `sine` and `sqrt` are the
abstract transcendental primitives: `sine u` models `Math.sin (Math.PI * u)`
(the source computes the phase `t · π · 2 · waveFrequency`; the factor `π`
is absorbed into `sine`), `sqrt` models `Math.sqrt`. -/
def generateWavyEdge (sine sqrt : ℚ → ℚ)
    (startX startY endX endY waveAmplitude waveFrequency : ℚ)
    (segments : ℕ) : List Point :=
  let dx := endX - startX
  let dy := endY - startY
  let length := sqrt (dx * dx + dy * dy)
  let dirX := dx / length
  let dirY := dy / length
  let perpX := -dirY
  let perpY := dirX
  (List.range (segments + 1)).map (fun (i : ℕ) =>
    let t : ℚ := (i : ℚ) / (segments : ℚ)
    let baseX := startX + dx * t
    let baseY := startY + dy * t
    let waveOffset := sine (t * 2 * waveFrequency) * waveAmplitude
    ((baseX + perpX * waveOffset, baseY + perpY * waveOffset) : Point))

/-- `const WAVE_AMPLITUDE = 3 * SCALE` (grid.ts line 225). -/
def WAVE_AMPLITUDE : ℚ := 3 * SCALE

/-- `const WAVE_FREQUENCY = 2` (grid.ts line 226). -/
def WAVE_FREQUENCY : ℚ := 2

/-- `const WAVE_SEGMENTS = 16` (grid.ts line 227). -/
def WAVE_SEGMENTS : ℕ := 16

/-- The wavy point sequence `drawWavyGrassSide` (grid.ts, lines 232–248)
builds for its bottom edge: `generateWavyEdge` from `bottomLeft` to
`bottomRight` with the shared wave parameters. -/
def drawWavyGrassSideBottom (sine sqrt : ℚ → ℚ)
    (bottomRight bottomLeft : Point) : List Point :=
  generateWavyEdge sine sqrt bottomLeft.1 bottomLeft.2 bottomRight.1 bottomRight.2
    WAVE_AMPLITUDE WAVE_FREQUENCY WAVE_SEGMENTS

/-- The wavy point sequence `drawWavySoilSide` (grid.ts, lines 277–294)
builds for its top edge: `generateWavyEdge` from `topLeft` to `topRight`
with the shared wave parameters. -/
def drawWavySoilSideTop (sine sqrt : ℚ → ℚ)
    (topLeft topRight : Point) : List Point :=
  generateWavyEdge sine sqrt topLeft.1 topLeft.2 topRight.1 topRight.2
    WAVE_AMPLITUDE WAVE_FREQUENCY WAVE_SEGMENTS

/-- The right soil face's wavy top edge as `drawIsoBlock` draws it
(grid.ts, lines 331–337), for a tile whose top-face centre is
`(pixelX, pixelY)`. -/
def isoBlockSoilRightTop (sine sqrt : ℚ → ℚ) (pixelX pixelY : ℚ) : List Point :=
  let w := GRID_CONFIG.tileWidth
  let h := GRID_CONFIG.tileWidth / 2
  let topPointY := pixelY - h / 2
  let soilY := topPointY + GRID_CONFIG.grassHeight
  drawWavySoilSideTop sine sqrt (pixelX, soilY + h) (pixelX + w / 2, soilY + h / 2)

/-- The left soil face's wavy top edge (grid.ts, lines 340–346). -/
def isoBlockSoilLeftTop (sine sqrt : ℚ → ℚ) (pixelX pixelY : ℚ) : List Point :=
  let w := GRID_CONFIG.tileWidth
  let h := GRID_CONFIG.tileWidth / 2
  let topPointY := pixelY - h / 2
  let soilY := topPointY + GRID_CONFIG.grassHeight
  drawWavySoilSideTop sine sqrt (pixelX - w / 2, soilY + h / 2) (pixelX, soilY + h)

/-- The right grass face's wavy bottom edge (grid.ts, lines 349–355), built
from the face's `bottomRight` and `bottomLeft` corners. -/
def isoBlockGrassRightBottom (sine sqrt : ℚ → ℚ) (pixelX pixelY : ℚ) : List Point :=
  let w := GRID_CONFIG.tileWidth
  let h := GRID_CONFIG.tileWidth / 2
  let topPointY := pixelY - h / 2
  drawWavyGrassSideBottom sine sqrt
    (pixelX + w / 2, topPointY + h / 2 + GRID_CONFIG.grassHeight)
    (pixelX, topPointY + h + GRID_CONFIG.grassHeight)

/-- The left grass face's wavy bottom edge (grid.ts, lines 358–364). -/
def isoBlockGrassLeftBottom (sine sqrt : ℚ → ℚ) (pixelX pixelY : ℚ) : List Point :=
  let w := GRID_CONFIG.tileWidth
  let h := GRID_CONFIG.tileWidth / 2
  let topPointY := pixelY - h / 2
  drawWavyGrassSideBottom sine sqrt
    (pixelX, topPointY + h + GRID_CONFIG.grassHeight)
    (pixelX - w / 2, topPointY + h / 2 + GRID_CONFIG.grassHeight)

/-! ## Filter engine (`src/core/filters.ts`) -/

/-- One RGBA sample of an `ImageData` buffer (a `Uint8ClampedArray`):
four byte-valued channels. -/
structure Pixel where
  r : ℕ
  g : ℕ
  b : ℕ
  a : ℕ
deriving DecidableEq

/-- The optional `colorOverlay` record of `canvasAdjustments` (filters.ts). -/
structure ColorOverlay where
  r : ℚ
  g : ℚ
  b : ℚ
  opacity : ℚ
deriving DecidableEq

/-- The `canvasAdjustments` record of a `FilterConfig` (filters.ts). -/
structure CanvasAdjustments where
  brightness : ℚ
  contrast : ℚ
  saturation : ℚ
  hue : ℚ
  colorOverlay : Option ColorOverlay
  temperature : Option ℚ
deriving DecidableEq

/-- `interface FilterConfig` (filters.ts). -/
structure FilterConfig where
  name : String
  description : String
  ffmpegFilter : String
  canvasAdjustments : CanvasAdjustments
deriving DecidableEq

/-- `FILTERS.none`. -/
def noneFilter : FilterConfig :=
  { name := "none", description := "No filter applied", ffmpegFilter := ""
    canvasAdjustments :=
      { brightness := 0, contrast := 0, saturation := 1, hue := 0
        colorOverlay := Option.none, temperature := Option.none } }

/-- `FILTERS.winter`. -/
def winter : FilterConfig :=
  { name := "winter", description := "Cool blue tones with slight desaturation"
    ffmpegFilter := "colorbalance=bs=0.15:bm=0.1:bh=0.05:rs=-0.1:gs=-0.05,eq=brightness=0.05:saturation=0.85"
    canvasAdjustments :=
      { brightness := 5, contrast := 5, saturation := 85/100, hue := -10
        temperature := Option.some (-30)
        colorOverlay := Option.some { r := 200, g := 220, b := 255, opacity := 8/100 } } }

/-- `FILTERS.autumn`. -/
def autumn : FilterConfig :=
  { name := "autumn", description := "Warm orange and golden tones"
    ffmpegFilter := "colorbalance=rs=0.15:rm=0.1:rh=0.05:gs=0.05:bs=-0.1:bm=-0.1,eq=saturation=1.2:contrast=1.05"
    canvasAdjustments :=
      { brightness := 0, contrast := 8, saturation := 12/10, hue := 15
        temperature := Option.some 40
        colorOverlay := Option.some { r := 255, g := 180, b := 100, opacity := 6/100 } } }

/-- `FILTERS.spring`. -/
def spring : FilterConfig :=
  { name := "spring", description := "Fresh, vibrant greens and soft tones"
    ffmpegFilter := "colorbalance=gs=0.1:gm=0.08:rs=0.05,eq=brightness=0.08:saturation=1.15"
    canvasAdjustments :=
      { brightness := 8, contrast := 3, saturation := 115/100, hue := 5
        temperature := Option.some 10
        colorOverlay := Option.some { r := 220, g := 255, b := 220, opacity := 5/100 } } }

/-- `FILTERS.summer`. -/
def summer : FilterConfig :=
  { name := "summer", description := "Bright, warm golden hour feel"
    ffmpegFilter := "colorbalance=rs=0.1:rm=0.08:gs=0.05:bs=-0.05,eq=brightness=0.1:saturation=1.1:contrast=1.05"
    canvasAdjustments :=
      { brightness := 10, contrast := 5, saturation := 11/10, hue := 10
        temperature := Option.some 25
        colorOverlay := Option.some { r := 255, g := 240, b := 200, opacity := 7/100 } } }

/-- `FILTERS.night`. -/
def night : FilterConfig :=
  { name := "night", description := "Dark blue moonlit atmosphere"
    ffmpegFilter := "colorbalance=bs=0.25:bm=0.2:bh=0.15:rs=-0.15:gs=-0.1,eq=brightness=-0.15:saturation=0.7:contrast=1.1"
    canvasAdjustments :=
      { brightness := -15, contrast := 10, saturation := 7/10, hue := -20
        temperature := Option.some (-50)
        colorOverlay := Option.some { r := 50, g := 80, b := 150, opacity := 15/100 } } }

/-- `FILTERS.sepia`. -/
def sepia : FilterConfig :=
  { name := "sepia", description := "Classic sepia/vintage brown tones"
    ffmpegFilter := "colorchannelmixer=.393:.769:.189:0:.349:.686:.168:0:.272:.534:.131"
    canvasAdjustments :=
      { brightness := 0, contrast := 5, saturation := 3/10, hue := 30
        temperature := Option.some 30
        colorOverlay := Option.some { r := 210, g := 180, b := 140, opacity := 2/10 } } }

/-- `FILTERS.vintage`. -/
def vintage : FilterConfig :=
  { name := "vintage", description := "Faded retro film look"
    ffmpegFilter := "curves=vintage,eq=saturation=0.9:contrast=0.95"
    canvasAdjustments :=
      { brightness := 5, contrast := -5, saturation := 9/10, hue := 5
        temperature := Option.some 15
        colorOverlay := Option.some { r := 250, g := 240, b := 230, opacity := 1/10 } } }

/-- The `FILTERS` record viewed as a string-keyed lookup (JS property access
`FILTERS[name]` yields `undefined` for a key that is not one of the eight
entries). -/
def FILTERS (name : String) : Option FilterConfig :=
  if name = "none" then Option.some noneFilter
  else if name = "winter" then Option.some winter
  else if name = "autumn" then Option.some autumn
  else if name = "spring" then Option.some spring
  else if name = "summer" then Option.some summer
  else if name = "night" then Option.some night
  else if name = "sepia" then Option.some sepia
  else if name = "vintage" then Option.some vintage
  else Option.none

/-- `getFilter` (filters.ts, lines 182–184): `FILTERS[name] || FILTERS.none`
(every catalog entry is a truthy object, so `||` only catches the
`undefined` of an unknown key). -/
def getFilter (name : String) : FilterConfig :=
  match FILTERS name with
  | Option.some f => f
  | Option.none => noneFilter

/-- The final per-channel store
`data[i] = Math.max(0, Math.min(255, Math.round(v)))` (filters.ts 290–292). -/
def clampByte (q : ℚ) : ℕ := (max 0 (min 255 (jsRound q))).toNat

/-- The loop body of `applyCanvasFilter` (filters.ts, lines 233–293) for one
RGBA sample: fully transparent pixels are skipped; otherwise temperature,
saturation, brightness, contrast and color-overlay adjustments are applied
in that order (each one guarded on its parameter being active), and the
channels are clamped to [0,255] and rounded on store.  Note the temperature
step clamps with `Math.min(255, ·)` / `Math.max(0, ·)` as it goes. -/
def applyPixel (adj : CanvasAdjustments) (p : Pixel) : Pixel :=
  if p.a = 0 then p
  else
    let r0 : ℚ := p.r
    let g0 : ℚ := p.g
    let b0 : ℚ := p.b
    let rgb1 : ℚ × ℚ × ℚ :=
      match adj.temperature with
      | Option.some temp =>
        if temp ≠ 0 then
          let tempFactor := temp / 100
          if 0 < tempFactor then
            (min 255 (r0 + tempFactor * 30), min 255 (g0 + tempFactor * 10),
              max 0 (b0 - tempFactor * 20))
          else
            (max 0 (r0 + tempFactor * 20), g0, min 255 (b0 - tempFactor * 30))
        else (r0, g0, b0)
      | Option.none => (r0, g0, b0)
    let rgb2 : ℚ × ℚ × ℚ :=
      if adj.saturation ≠ 1 then
        let gray := 299/1000 * rgb1.1 + 587/1000 * rgb1.2.1 + 114/1000 * rgb1.2.2
        (gray + adj.saturation * (rgb1.1 - gray),
          gray + adj.saturation * (rgb1.2.1 - gray),
          gray + adj.saturation * (rgb1.2.2 - gray))
      else rgb1
    let rgb3 : ℚ × ℚ × ℚ :=
      if adj.brightness ≠ 0 then
        let brightFactor := adj.brightness * (255/100)
        (rgb2.1 + brightFactor, rgb2.2.1 + brightFactor, rgb2.2.2 + brightFactor)
      else rgb2
    let rgb4 : ℚ × ℚ × ℚ :=
      if adj.contrast ≠ 0 then
        let contrastFactor := (259 * (adj.contrast + 255)) / (255 * (259 - adj.contrast))
        (contrastFactor * (rgb3.1 - 128) + 128,
          contrastFactor * (rgb3.2.1 - 128) + 128,
          contrastFactor * (rgb3.2.2 - 128) + 128)
      else rgb3
    let rgb5 : ℚ × ℚ × ℚ :=
      match adj.colorOverlay with
      | Option.some overlay =>
        if 0 < overlay.opacity then
          (rgb4.1 * (1 - overlay.opacity) + overlay.r * overlay.opacity,
            rgb4.2.1 * (1 - overlay.opacity) + overlay.g * overlay.opacity,
            rgb4.2.2 * (1 - overlay.opacity) + overlay.b * overlay.opacity)
        else rgb4
      | Option.none => rgb4
    { r := clampByte rgb5.1, g := clampByte rgb5.2.1, b := clampByte rgb5.2.2, a := p.a }

/-- `applyCanvasFilter` (filters.ts, lines 217–297), acting on the pixel
list of the canvas's `ImageData`: an early return for the `none` name,
otherwise the per-pixel transform mapped over the buffer. -/
def applyCanvasFilter (filterName : String) (data : List Pixel) : List Pixel :=
  let filter := getFilter filterName
  let adj := filter.canvasAdjustments
  if filterName = "none" then data
  else data.map (applyPixel adj)

/-- A pixel of a well-formed raster: all four channels are bytes.  This is
inherent to `Uint8ClampedArray` and is the precondition of the range claims. -/
def ValidPixel (p : Pixel) : Prop :=
  p.r ≤ 255 ∧ p.g ≤ 255 ∧ p.b ≤ 255 ∧ p.a ≤ 255

instance : DecidablePred ValidPixel := fun p => by
  unfold ValidPixel
  infer_instance

/-! ### The per-pixel pipeline as the spec states it (for C6) -/

/-- Temperature step exactly as the source performs it (with the
interleaved `Math.min`/`Math.max` clamps). -/
def temperatureStep (temperature : Option ℚ) (c : ℚ × ℚ × ℚ) : ℚ × ℚ × ℚ :=
  match temperature with
  | Option.some temp =>
    if temp ≠ 0 then
      let tempFactor := temp / 100
      if 0 < tempFactor then
        (min 255 (c.1 + tempFactor * 30), min 255 (c.2.1 + tempFactor * 10),
          max 0 (c.2.2 - tempFactor * 20))
      else
        (max 0 (c.1 + tempFactor * 20), c.2.1, min 255 (c.2.2 - tempFactor * 30))
    else c
  | Option.none => c

/-- Temperature step as the spec describes it: the same shifts but with no
clamping (`warm: r+=30f, g+=10f, b−=20f; cool: r+=20f, b−=30f`), clamping
being claimed to happen only at the final step. -/
def temperatureStepUnclamped (temperature : Option ℚ) (c : ℚ × ℚ × ℚ) : ℚ × ℚ × ℚ :=
  match temperature with
  | Option.some temp =>
    if temp ≠ 0 then
      let tempFactor := temp / 100
      if 0 < tempFactor then
        (c.1 + tempFactor * 30, c.2.1 + tempFactor * 10, c.2.2 - tempFactor * 20)
      else
        (c.1 + tempFactor * 20, c.2.1, c.2.2 - tempFactor * 30)
    else c
  | Option.none => c

/-- Saturation about luma (step 2). -/
def saturationStep (saturation : ℚ) (c : ℚ × ℚ × ℚ) : ℚ × ℚ × ℚ :=
  if saturation ≠ 1 then
    let gray := 299/1000 * c.1 + 587/1000 * c.2.1 + 114/1000 * c.2.2
    (gray + saturation * (c.1 - gray), gray + saturation * (c.2.1 - gray),
      gray + saturation * (c.2.2 - gray))
  else c

/-- Additive brightness (step 3). -/
def brightnessStep (brightness : ℚ) (c : ℚ × ℚ × ℚ) : ℚ × ℚ × ℚ :=
  if brightness ≠ 0 then
    let brightFactor := brightness * (255/100)
    (c.1 + brightFactor, c.2.1 + brightFactor, c.2.2 + brightFactor)
  else c

/-- Contrast gain about 128 (step 4). -/
def contrastStep (contrast : ℚ) (c : ℚ × ℚ × ℚ) : ℚ × ℚ × ℚ :=
  if contrast ≠ 0 then
    let contrastFactor := (259 * (contrast + 255)) / (255 * (259 - contrast))
    (contrastFactor * (c.1 - 128) + 128, contrastFactor * (c.2.1 - 128) + 128,
      contrastFactor * (c.2.2 - 128) + 128)
  else c

/-- Color overlay blend (step 5). -/
def overlayStep (colorOverlay : Option ColorOverlay) (c : ℚ × ℚ × ℚ) : ℚ × ℚ × ℚ :=
  match colorOverlay with
  | Option.some overlay =>
    if 0 < overlay.opacity then
      (c.1 * (1 - overlay.opacity) + overlay.r * overlay.opacity,
        c.2.1 * (1 - overlay.opacity) + overlay.g * overlay.opacity,
        c.2.2 * (1 - overlay.opacity) + overlay.b * overlay.opacity)
    else c
  | Option.none => c

/-- The per-pixel transform in the step order and form stated by the spec:
unclamped temperature shift, saturation, brightness, contrast, overlay,
then a single final clamp-and-round.  (This is the formalisation of claim
C6 as written; the source differs by clamping inside the temperature step.) -/
def applyPixelSpecOrder (adj : CanvasAdjustments) (p : Pixel) : Pixel :=
  if p.a = 0 then p
  else
    let c := overlayStep adj.colorOverlay (contrastStep adj.contrast
      (brightnessStep adj.brightness (saturationStep adj.saturation
        (temperatureStepUnclamped adj.temperature ((p.r : ℚ), (p.g : ℚ), (p.b : ℚ))))))
    { r := clampByte c.1, g := clampByte c.2.1, b := clampByte c.2.2, a := p.a }

/-- The per-pixel transform as a pipeline of the six named steps, with the
source's clamped temperature step. -/
def applyPixelPipeline (adj : CanvasAdjustments) (p : Pixel) : Pixel :=
  if p.a = 0 then p
  else
    let c := overlayStep adj.colorOverlay (contrastStep adj.contrast
      (brightnessStep adj.brightness (saturationStep adj.saturation
        (temperatureStep adj.temperature ((p.r : ℚ), (p.g : ℚ), (p.b : ℚ))))))
    { r := clampByte c.1, g := clampByte c.2.1, b := clampByte c.2.2, a := p.a }

/-! ## Content anchor detector (`detectTreeContentPosition`, grid.ts) -/

/-- A decoded raster with per-pixel RGBA: `pix x y` is the sample at column
`x`, row `y`, modelling `data[(y*width+x)*4 .. +3]` of the `ImageData`
read in `detectTreeContentPosition`. -/
structure Image where
  width : ℕ
  height : ℕ
  pix : ℕ → ℕ → Pixel

/-- Body of the inner `x` loop of the row scan (grid.ts, lines 105–121):
counts pixels with alpha above the 245 threshold and accumulates their
opacity-weighted darkness `(765 − (r+g+b)) · alpha/255`. -/
def rowStatsStep (img : Image) (y : ℕ) (acc : ℕ × ℚ) (x : ℕ) : ℕ × ℚ :=
  let p := img.pix x y
  if 245 < p.a then
    let brightness : ℚ := (p.r : ℚ) + (p.g : ℚ) + (p.b : ℚ)
    let darkness : ℚ := (765 - brightness) * ((p.a : ℚ) / 255)
    (acc.1 + 1, acc.2 + darkness)
  else acc

/-- `(pixelCount, totalDarkness)` of row `y`.  The JS flag `hasPixels` is
set exactly when `pixelCount` is incremented, so `hasPixels && pixelCount > 0`
is `0 < pixelCount`. -/
def rowStats (img : Image) (y : ℕ) : ℕ × ℚ :=
  (List.range img.width).foldl (rowStatsStep img y) (0, 0)

/-- The candidate-row loop of `detectTreeContentPosition` (grid.ts, lines
100–130).  `scanAux img n acc` processes rows `n-1, n-2, …, 0` (the JS `y`
loop runs from `height-1` down to `0`), appending `(y, averageDarkness)`
for each row that contains a pixel with alpha > 245, and stopping — the
`break` — as soon as the number of collected candidates exceeds
`height * 0.3`. -/
def scanAux (img : Image) : ℕ → List (ℕ × ℚ) → List (ℕ × ℚ)
  | 0, acc => acc
  | n + 1, acc =>
    let stats := rowStats img n
    if 0 < stats.1 then
      let acc2 := acc ++ [(n, stats.2 / (stats.1 : ℚ))]
      if (img.height : ℚ) * (3/10) < (acc2.length : ℚ) then acc2
      else scanAux img n acc2
    else scanAux img n acc

/-- The full `candidateRows` list collected by the scan. -/
def candidateRows (img : Image) : List (ℕ × ℚ) := scanAux img img.height []

/-- The darkest-row selection step (grid.ts, lines 139–143): replace the
current best exactly when the candidate is strictly darker. -/
def darkestStep (best c : ℕ × ℚ) : ℕ × ℚ :=
  if best.2 < c.2 then c else best

/-- Body of the leftmost/rightmost scan over the anchor row (grid.ts,
lines 152–160), starting from `(leftmost, rightmost) = (width, -1)`. -/
def edgeScanStep (img : Image) (y : ℕ) (acc : ℤ × ℤ) (x : ℕ) : ℤ × ℤ :=
  let p := img.pix x y
  if 245 < p.a then
    ((if (x : ℤ) < acc.1 then (x : ℤ) else acc.1),
      (if acc.2 < (x : ℤ) then (x : ℤ) else acc.2))
  else acc

/-- The detector's result `{ xOffset, yPadding, contentWidth }`. -/
structure ContentAnchor where
  xOffset : ℚ
  yPadding : ℤ
  contentWidth : ℤ
deriving DecidableEq

/-- `detectTreeContentPosition` (grid.ts, lines 88–169). -/
def detectTreeContentPosition (img : Image) : ContentAnchor :=
  match candidateRows img with
  | [] => { xOffset := 0, yPadding := 0, contentWidth := 0 }
  | first :: rest =>
    let darkestRow := (first :: rest).foldl darkestStep first
    let bottomY := darkestRow.1
    let lr := (List.range img.width).foldl (edgeScanStep img bottomY) ((img.width : ℤ), -1)
    let contentCenterX : ℚ := ((lr.1 : ℚ) + (lr.2 : ℚ)) / 2
    { xOffset := contentCenterX - (img.width : ℚ) / 2
      yPadding := (img.height : ℤ) - (bottomY : ℤ) - 1
      contentWidth := lr.2 - lr.1 + 1 }

/-- The synthetic raster of the anchor round-trip property: W×H, fully
transparent except a solid opaque (alpha 255) rectangle of colour
`(cr,cg,cb)` spanning rows `[R0,R1]` and columns `[C0,C1]`. -/
def rectImage (W H R0 R1 C0 C1 cr cg cb : ℕ) : Image :=
  { width := W, height := H
    pix := fun x y =>
      if R0 ≤ y ∧ y ≤ R1 ∧ C0 ≤ x ∧ x ≤ C1 then { r := cr, g := cg, b := cb, a := 255 }
      else { r := 0, g := 0, b := 0, a := 0 } }

/-- A 1×10 raster whose only opaque pixel sits in the top row (`y = 0`):
the bottom nine rows are fully transparent. -/
def topRowImage : Image :=
  { width := 1, height := 10
    pix := fun _ y =>
      if y = 0 then { r := 0, g := 0, b := 0, a := 255 }
      else { r := 0, g := 0, b := 0, a := 0 } }

/-- Helper: a list all of whose members are pairwise related is `Pairwise`. -/
theorem pairwise_of_mem_rel {α : Type} {R : α → α → Prop} :
    ∀ {l : List α}, (∀ a ∈ l, ∀ b ∈ l, R a b) → l.Pairwise R
  | [], _ => List.Pairwise.nil
  | a :: l, h => by
    refine List.Pairwise.cons ?_ (pairwise_of_mem_rel ?_)
    · intro b hb
      exact h a (List.mem_cons_self a l) b (List.mem_cons_of_mem a hb)
    · intro x hx y hy
      exact h x (List.mem_cons_of_mem a hx) y (List.mem_cons_of_mem a hy)

/-- C5 counterexample: neither `calculateCanvasDimensions` nor
`generateGridPositions` rejects a non-positive grid size.  Both are total
functions in the source (grid.ts lines 394–427 contain no validation, no
thrown error and no failure value); at `gridSize = 0` they simply compute
geometry: a 1240×1240 canvas from the fixed margin terms and an empty
position list. -/
theorem config_rejection_c5_counterexample :
    calculateCanvasDimensions 0 = ((1240 : ℚ), (1240 : ℚ)) ∧
    generateGridPositions 0 1840 = [] := by
  constructor
  · simp only [calculateCanvasDimensions, GRID_CONFIG, SCALE, max_def]
    norm_num
  · decide

/-- C5 amended: the GridGeometry functions perform no validation and never
fail.  For every non-positive grid size, `generateGridPositions` returns the
empty list and `calculateCanvasDimensions` returns the square canvas
`200·gridSize + 1240` determined by the fixed margin terms (the height
branch of the `max`, which dominates for non-positive sizes). -/
theorem config_rejection_c5_amended (g : ℤ) (hg : g ≤ 0) (w : ℚ) :
    generateGridPositions g w = [] ∧
    calculateCanvasDimensions g = (200 * (g : ℚ) + 1240, 200 * (g : ℚ) + 1240) := by
  constructor
  · simp [generateGridPositions, Int.toNat_of_nonpos hg]
  · have hq : (g : ℚ) ≤ 0 := by exact_mod_cast hg
    simp only [calculateCanvasDimensions, GRID_CONFIG, SCALE]
    rw [max_eq_right (by push_cast; linarith)]
    simp only [Prod.mk.injEq]
    constructor <;> ring

/-- C5 amended, witness at `gridSize = 0`, `canvasWidth = 1840`. -/
theorem config_rejection_c5_amended_witness :
    generateGridPositions 0 1840 = [] ∧
    calculateCanvasDimensions 0 =
      (200 * ((0 : ℤ) : ℚ) + 1240, 200 * ((0 : ℤ) : ℚ) + 1240) :=
  config_rejection_c5_amended 0 (by decide) 1840

/-- C2: `sortPositionsForRendering` returns a permutation of its input that
is non-decreasing in `gridX + gridY`, and positions with equal key keep
their input-relative order (for every key value, filtering the output to
that key gives exactly the input filtered to that key). -/
theorem paint_order_c2 (positions : List GridPosition) :
    (sortPositionsForRendering positions).Perm positions ∧
    (sortPositionsForRendering positions).Pairwise
      (fun a b => a.gridX + a.gridY ≤ b.gridX + b.gridY) ∧
    ∀ k : ℕ,
      (sortPositionsForRendering positions).filter (fun p => p.gridX + p.gridY = k) =
        positions.filter (fun p => p.gridX + p.gridY = k) := by
  have htrans : ∀ a b c : GridPosition,
      (fun a b : GridPosition => decide (a.gridY + a.gridX ≤ b.gridY + b.gridX)) a b →
      (fun a b : GridPosition => decide (a.gridY + a.gridX ≤ b.gridY + b.gridX)) b c →
      (fun a b : GridPosition => decide (a.gridY + a.gridX ≤ b.gridY + b.gridX)) a c := by
    intro a b c hab hbc
    simp only [decide_eq_true_eq] at *
    omega
  have htotal : ∀ a b : GridPosition,
      ((fun a b : GridPosition => decide (a.gridY + a.gridX ≤ b.gridY + b.gridX)) a b ||
       (fun a b : GridPosition => decide (a.gridY + a.gridX ≤ b.gridY + b.gridX)) b a) = true := by
    intro a b
    simp only [Bool.or_eq_true, decide_eq_true_eq]
    omega
  refine ⟨List.mergeSort_perm positions _, ?_, ?_⟩
  · have h := List.sorted_mergeSort htrans htotal positions
    exact h.imp (by intro a b hab; simp only [decide_eq_true_eq] at hab; omega)
  · intro k
    have hfil : ∀ p ∈ positions.filter (fun p => p.gridX + p.gridY = k),
        p.gridX + p.gridY = k := by
      intro p hp
      simpa using (List.mem_filter.mp hp).2
    have hpair : (positions.filter (fun p => p.gridX + p.gridY = k)).Pairwise
        (fun a b : GridPosition => decide (a.gridY + a.gridX ≤ b.gridY + b.gridX) = true) := by
      apply pairwise_of_mem_rel
      intro a ha b hb
      have h1 := hfil a ha
      have h2 := hfil b hb
      simp only [decide_eq_true_eq]
      omega
    have hsub : List.Sublist (positions.filter (fun p => p.gridX + p.gridY = k))
        (sortPositionsForRendering positions) :=
      List.sublist_mergeSort htrans htotal hpair (List.filter_sublist positions)
    have hsub2 : List.Sublist (positions.filter (fun p => p.gridX + p.gridY = k))
        ((sortPositionsForRendering positions).filter (fun p => p.gridX + p.gridY = k)) := by
      have := hsub.filter (fun p => p.gridX + p.gridY = k)
      rwa [List.filter_eq_self.mpr (by intro a ha; simpa using hfil a ha)] at this
    have hperm : List.Perm
        ((sortPositionsForRendering positions).filter (fun p => p.gridX + p.gridY = k))
        (positions.filter (fun p => p.gridX + p.gridY = k)) :=
      (List.mergeSort_perm positions _).filter _
    exact (hsub2.eq_of_length hperm.length_eq.symm).symm

/-- Helper: `clampByte` always produces a byte. -/
theorem clampByte_le (q : ℚ) : clampByte q ≤ 255 := by
  unfold clampByte
  have h1 : min 255 (jsRound q) ≤ 255 := min_le_left _ _
  have h2 : max 0 (min 255 (jsRound q)) ≤ 255 := max_le (by norm_num) h1
  omega

/-- C9: the catalog lookup never fails — any name outside the eight catalog
entries resolves to the identity (`none`) preset — and the raster transform
with the `none` name leaves the pixel buffer byte-identical. -/
theorem filter_lookup_default_c9 (name : String) (data : List Pixel)
    (h : name ∉ ["none", "winter", "autumn", "spring", "summer", "night", "sepia", "vintage"]) :
    getFilter name = noneFilter ∧ applyCanvasFilter "none" data = data := by
  constructor
  · simp only [List.mem_cons, List.not_mem_nil, or_false, not_or] at h
    obtain ⟨h1, h2, h3, h4, h5, h6, h7, h8⟩ := h
    simp [getFilter, FILTERS, h1, h2, h3, h4, h5, h6, h7, h8]
  · simp [applyCanvasFilter]

/-- C9, witness at the unknown name `"unknown"` and a one-pixel raster. -/
theorem filter_lookup_default_c9_witness :
    "unknown" ∉ ["none", "winter", "autumn", "spring", "summer", "night", "sepia", "vintage"] ∧
    (getFilter "unknown" = noneFilter ∧
      applyCanvasFilter "none" [Pixel.mk 1 2 3 4] = [Pixel.mk 1 2 3 4]) :=
  ⟨by decide, filter_lookup_default_c9 "unknown" [Pixel.mk 1 2 3 4] (by decide)⟩

/-- C10: for every raster and preset name, the transform acts
pixel-by-pixel, never modifies the alpha channel, and leaves pixels with
zero alpha entirely unchanged. -/
theorem alpha_preservation_c10 (name : String) (data : List Pixel) :
    List.Forall₂ (fun pIn pOut => pOut.a = pIn.a ∧ (pIn.a = 0 → pOut = pIn))
      data (applyCanvasFilter name data) := by
  unfold applyCanvasFilter
  by_cases h : name = "none"
  · simp only [h, if_pos]
    exact List.forall₂_same.mpr (fun p _ => ⟨rfl, fun _ => rfl⟩)
  · simp only [if_neg h]
    induction data with
    | nil => exact List.Forall₂.nil
    | cons p ps ih =>
      refine List.Forall₂.cons ⟨?_, ?_⟩ ih
      · by_cases hp : p.a = 0 <;> simp [applyPixel, hp]
      · intro hp
        simp [applyPixel, hp]

/-- C3: on a well-formed raster (all channels bytes), every channel sample
produced by the raster transform lies in [0,255], for every preset name. -/
theorem filter_bounds_c3 (name : String) (data : List Pixel)
    (h : ∀ p ∈ data, ValidPixel p) :
    ∀ q ∈ applyCanvasFilter name data, ValidPixel q := by
  intro q hq
  unfold applyCanvasFilter at hq
  by_cases hn : name = "none"
  · simp only [hn, if_pos] at hq
    exact h q hq
  · simp only [if_neg hn, List.mem_map] at hq
    obtain ⟨p, hp, rfl⟩ := hq
    have hvp := h p hp
    unfold applyPixel
    by_cases hpa : p.a = 0
    · simpa [hpa] using hvp
    · simp only [if_neg hpa]
      exact ⟨clampByte_le _, clampByte_le _, clampByte_le _, hvp.2.2.2⟩

/-- C3, witness: the `winter` preset on a one-pixel raster. -/
theorem filter_bounds_c3_witness :
    (∀ p ∈ [Pixel.mk 3 0 0 255], ValidPixel p) ∧
    ∀ q ∈ applyCanvasFilter "winter" [Pixel.mk 3 0 0 255], ValidPixel q :=
  ⟨by decide, filter_bounds_c3 "winter" [Pixel.mk 3 0 0 255] (by decide)⟩

/-- C6 counterexample: the claim that clamping occurs only at the final
step is false.  The source clamps inside the temperature step
(`Math.min(255, ·)` / `Math.max(0, ·)`, filters.ts 247–253).  For the
`winter` preset on the pixel `(r,g,b,a) = (3,0,0,255)` the cool shift
drives `r` to `3 − 6 = −3`; the source clamps it to `0` before saturation,
while the spec's order (no clamp until the end) feeds `−3` into the
saturation step, and the final bytes differ (`r = 24` vs `r = 21`). -/
theorem filter_order_c6_counterexample :
    applyPixel winter.canvasAdjustments (Pixel.mk 3 0 0 255) ≠
      applyPixelSpecOrder winter.canvasAdjustments (Pixel.mk 3 0 0 255) := by
  decide

/-- C6 amended: for every pixel with nonzero alpha the transform is the
six-step pipeline in the stated order — temperature shift with
`f = temperature/100` (warm: `r+=30f, g+=10f, b−=20f`; cool: `r+=20f,
b−=30f`), saturation about luma, additive brightness, contrast gain about
128, color overlay blend, then clamping to [0,255] with rounding — except
that the temperature step itself already clamps as it shifts (warm: `r`,`g`
capped at 255 and `b` floored at 0; cool: `r` floored at 0 and `b` capped
at 255).  Rounding happens only at the final step. -/
theorem filter_order_c6_amended (adj : CanvasAdjustments) (p : Pixel) (h : p.a ≠ 0) :
    applyPixel adj p = applyPixelPipeline adj p := by
  unfold applyPixel applyPixelPipeline temperatureStep saturationStep brightnessStep
    contrastStep overlayStep
  simp only [if_neg h]

/-- C6 amended, witness: the `winter` preset on the pixel `(3,0,0,255)`. -/
theorem filter_order_c6_amended_witness :
    (Pixel.mk 3 0 0 255).a ≠ 0 ∧
    applyPixel winter.canvasAdjustments (Pixel.mk 3 0 0 255) =
      applyPixelPipeline winter.canvasAdjustments (Pixel.mk 3 0 0 255) :=
  ⟨by decide, filter_order_c6_amended winter.canvasAdjustments (Pixel.mk 3 0 0 255) (by decide)⟩

/-- C1: in `drawIsoBlock`, each grass face's wavy bottom edge is
point-for-point identical to the adjoining soil face's wavy top edge: both
are `generateWavyEdge` at the same pair of endpoints with amplitude
`3·SCALE`, frequency 2 and 16 segments, giving 17 equal points. -/
theorem seam_continuity_c1 (sine sqrt : ℚ → ℚ) (pixelX pixelY : ℚ) :
    isoBlockGrassRightBottom sine sqrt pixelX pixelY =
      isoBlockSoilRightTop sine sqrt pixelX pixelY ∧
    isoBlockGrassLeftBottom sine sqrt pixelX pixelY =
      isoBlockSoilLeftTop sine sqrt pixelX pixelY ∧
    (isoBlockGrassRightBottom sine sqrt pixelX pixelY).length = 17 ∧
    (isoBlockGrassLeftBottom sine sqrt pixelX pixelY).length = 17 ∧
    WAVE_AMPLITUDE = 3 * SCALE ∧ WAVE_FREQUENCY = 2 ∧ WAVE_SEGMENTS = 16 := by
  refine ⟨?_, ?_, ?_, ?_, rfl, rfl, rfl⟩
  · unfold isoBlockGrassRightBottom isoBlockSoilRightTop drawWavyGrassSideBottom
      drawWavySoilSideTop
    ring_nf
  · unfold isoBlockGrassLeftBottom isoBlockSoilLeftTop drawWavyGrassSideBottom
      drawWavySoilSideTop
    ring_nf
  · simp [isoBlockGrassRightBottom, drawWavyGrassSideBottom, generateWavyEdge,
      WAVE_SEGMENTS]
  · simp [isoBlockGrassLeftBottom, drawWavyGrassSideBottom, generateWavyEdge,
      WAVE_SEGMENTS]

/-- The per-pixel darkness of the rectangle's colour: alpha is 255, so the
opacity weight `alpha/255` is 1. -/
def rectDark (cr cg cb : ℕ) : ℚ := 765 - ((cr : ℚ) + (cg : ℚ) + (cb : ℚ))

/-- `rowStatsStep` on the synthetic rectangle raster: a pixel contributes
iff it lies in the rectangle, and then contributes darkness `rectDark`. -/
theorem rowStatsStep_rect (W H R0 R1 C0 C1 cr cg cb y x : ℕ) (acc : ℕ × ℚ) :
    rowStatsStep (rectImage W H R0 R1 C0 C1 cr cg cb) y acc x =
      if R0 ≤ y ∧ y ≤ R1 ∧ C0 ≤ x ∧ x ≤ C1 then (acc.1 + 1, acc.2 + rectDark cr cg cb)
      else acc := by
  unfold rowStatsStep rectImage rectDark
  by_cases h : R0 ≤ y ∧ y ≤ R1 ∧ C0 ≤ x ∧ x ≤ C1
  · simp only [if_pos h]
    norm_num
  · simp only [if_neg h]
    norm_num

/-- The row-stats fold over the rectangle raster, in three phases of `n`:
before the rectangle's columns, inside them, and past them. -/
theorem rect_rowStats_aux (W H R0 R1 C0 C1 cr cg cb : ℕ) (hC : C0 ≤ C1)
    (y : ℕ) (hy0 : R0 ≤ y) (hy1 : y ≤ R1) :
    ∀ n : ℕ,
      (List.range n).foldl (rowStatsStep (rectImage W H R0 R1 C0 C1 cr cg cb) y)
        ((0 : ℕ), (0 : ℚ)) =
      if n ≤ C0 then ((0 : ℕ), (0 : ℚ))
      else if n ≤ C1 + 1 then (n - C0, ((n - C0 : ℕ) : ℚ) * rectDark cr cg cb)
      else (C1 + 1 - C0, ((C1 + 1 - C0 : ℕ) : ℚ) * rectDark cr cg cb) := by
  intro n
  induction n with
  | zero => simp
  | succ n ih =>
    rw [List.range_succ, List.foldl_append, ih]
    simp only [List.foldl_cons, List.foldl_nil]
    rcases Nat.lt_or_ge n C0 with hn0 | hn0
    · rw [if_pos (by omega : n ≤ C0), rowStatsStep_rect,
        if_neg (fun hcon => absurd hcon.2.2.1 (by omega)),
        if_pos (by omega : n + 1 ≤ C0)]
    · rcases Nat.lt_or_ge n (C1 + 1) with hn1 | hn1
      · have hcond : R0 ≤ y ∧ y ≤ R1 ∧ C0 ≤ n ∧ n ≤ C1 := ⟨hy0, hy1, hn0, by omega⟩
        rw [if_neg (by omega : ¬ (n + 1 ≤ C0)), if_pos (by omega : n + 1 ≤ C1 + 1)]
        by_cases h0 : n ≤ C0
        · rw [if_pos h0, rowStatsStep_rect, if_pos hcond]
          have hn : n = C0 := by omega
          subst hn
          simp only [Prod.mk.injEq]
          refine ⟨by omega, ?_⟩
          have : n + 1 - n = 1 := by omega
          rw [this]
          push_cast
          ring
        · rw [if_neg h0, if_pos (by omega : n ≤ C1 + 1), rowStatsStep_rect, if_pos hcond]
          simp only [Prod.mk.injEq]
          refine ⟨by omega, ?_⟩
          have hcast : ((n + 1 - C0 : ℕ) : ℚ) = ((n - C0 : ℕ) : ℚ) + 1 := by
            rw [Nat.cast_sub (by omega), Nat.cast_sub (by omega)]
            push_cast
            ring
          rw [hcast]
          ring
      · rw [rowStatsStep_rect, if_neg (fun hcon => absurd hcon.2.2.2 (by omega)),
          if_neg (by omega : ¬ (n + 1 ≤ C0)), if_neg (by omega : ¬ (n + 1 ≤ C1 + 1))]
        by_cases h0 : n ≤ C1 + 1
        · have hn : n = C1 + 1 := by omega
          subst hn
          rw [if_neg (by omega), if_pos h0]
        · rw [if_neg (by omega : ¬ (n ≤ C0)), if_neg h0]

/-- Rows inside the rectangle's row band have `C1+1−C0` solid pixels with
total darkness `(C1+1−C0)·rectDark`. -/
theorem rect_rowStats_in (W H R0 R1 C0 C1 cr cg cb : ℕ) (hC : C0 ≤ C1) (hCW : C1 < W)
    (y : ℕ) (hy0 : R0 ≤ y) (hy1 : y ≤ R1) :
    rowStats (rectImage W H R0 R1 C0 C1 cr cg cb) y =
      (C1 + 1 - C0, ((C1 + 1 - C0 : ℕ) : ℚ) * rectDark cr cg cb) := by
  unfold rowStats
  have hW : (rectImage W H R0 R1 C0 C1 cr cg cb).width = W := rfl
  rw [hW, rect_rowStats_aux W H R0 R1 C0 C1 cr cg cb hC y hy0 hy1 W]
  rcases Nat.lt_or_ge C1 (W - 1) with hw | hw
  · rw [if_neg (by omega), if_neg (by omega)]
  · have hWeq : W = C1 + 1 := by omega
    rw [if_neg (by omega), if_pos (by omega)]
    subst hWeq
    rfl

/-- Rows outside the rectangle's row band are fully transparent. -/
theorem rect_rowStats_out (W H R0 R1 C0 C1 cr cg cb : ℕ)
    (y : ℕ) (hy : y < R0 ∨ R1 < y) :
    rowStats (rectImage W H R0 R1 C0 C1 cr cg cb) y = ((0 : ℕ), (0 : ℚ)) := by
  unfold rowStats
  have hW : (rectImage W H R0 R1 C0 C1 cr cg cb).width = W := rfl
  rw [hW]
  have aux : ∀ n : ℕ,
      (List.range n).foldl (rowStatsStep (rectImage W H R0 R1 C0 C1 cr cg cb) y)
        ((0 : ℕ), (0 : ℚ)) = ((0 : ℕ), (0 : ℚ)) := by
    intro n
    induction n with
    | zero => simp
    | succ n ih =>
      rw [List.range_succ, List.foldl_append, ih]
      simp only [List.foldl_cons, List.foldl_nil]
      rw [rowStatsStep_rect, if_neg (fun hcon => ?_)]
      obtain ⟨h1, h2, -⟩ := hcon
      rcases hy with hy | hy <;> omega
  exact aux W

/-- `edgeScanStep` on the synthetic rectangle raster. -/
theorem edgeScanStep_rect (W H R0 R1 C0 C1 cr cg cb y x : ℕ) (acc : ℤ × ℤ) :
    edgeScanStep (rectImage W H R0 R1 C0 C1 cr cg cb) y acc x =
      if R0 ≤ y ∧ y ≤ R1 ∧ C0 ≤ x ∧ x ≤ C1 then
        ((if (x : ℤ) < acc.1 then (x : ℤ) else acc.1),
          (if acc.2 < (x : ℤ) then (x : ℤ) else acc.2))
      else acc := by
  unfold edgeScanStep rectImage
  by_cases h : R0 ≤ y ∧ y ≤ R1 ∧ C0 ≤ x ∧ x ≤ C1
  · simp only [if_pos h]
    norm_num
  · simp only [if_neg h]
    norm_num

/-- The leftmost/rightmost fold over a row of the rectangle's band, in
three phases of `n`. -/
theorem rect_edgeScan_aux (W H R0 R1 C0 C1 cr cg cb : ℕ) (hC : C0 ≤ C1) (hCW : C1 < W)
    (y : ℕ) (hy0 : R0 ≤ y) (hy1 : y ≤ R1) :
    ∀ n : ℕ,
      (List.range n).foldl (edgeScanStep (rectImage W H R0 R1 C0 C1 cr cg cb) y)
        ((W : ℤ), (-1 : ℤ)) =
      if n ≤ C0 then ((W : ℤ), (-1 : ℤ))
      else if n ≤ C1 + 1 then ((C0 : ℤ), (n : ℤ) - 1)
      else ((C0 : ℤ), (C1 : ℤ)) := by
  intro n
  induction n with
  | zero => simp
  | succ n ih =>
    rw [List.range_succ, List.foldl_append, ih]
    simp only [List.foldl_cons, List.foldl_nil]
    rcases Nat.lt_or_ge n C0 with hn0 | hn0
    · rw [if_pos (by omega : n ≤ C0), edgeScanStep_rect,
        if_neg (fun hcon => absurd hcon.2.2.1 (by omega)),
        if_pos (by omega : n + 1 ≤ C0)]
    · rcases Nat.lt_or_ge n (C1 + 1) with hn1 | hn1
      · have hcond : R0 ≤ y ∧ y ≤ R1 ∧ C0 ≤ n ∧ n ≤ C1 := ⟨hy0, hy1, hn0, by omega⟩
        rw [if_neg (by omega : ¬ (n + 1 ≤ C0)), if_pos (by omega : n + 1 ≤ C1 + 1)]
        by_cases h0 : n ≤ C0
        · have hn : n = C0 := by omega
          subst hn
          rw [if_pos h0, edgeScanStep_rect, if_pos hcond]
          simp only [Prod.mk.injEq]
          constructor
          · rw [if_pos (by exact_mod_cast Nat.lt_of_le_of_lt hC hCW)]
          · rw [if_pos (by omega)]
            push_cast
            ring
        · rw [if_neg h0, if_pos (by omega : n ≤ C1 + 1), edgeScanStep_rect, if_pos hcond]
          simp only [Prod.mk.injEq]
          constructor
          · rw [if_neg (by exact_mod_cast not_lt.mpr (by omega : C0 ≤ n))]
          · rw [if_pos (by omega)]
            omega
      · rw [edgeScanStep_rect, if_neg (fun hcon => absurd hcon.2.2.2 (by omega)),
          if_neg (by omega : ¬ (n + 1 ≤ C0)), if_neg (by omega : ¬ (n + 1 ≤ C1 + 1))]
        by_cases h0 : n ≤ C1 + 1
        · have hn : n = C1 + 1 := by omega
          subst hn
          rw [if_neg (by omega), if_pos h0]
          simp only [Prod.mk.injEq]
          constructor
          · trivial
          · push_cast
            ring
        · rw [if_neg (by omega : ¬ (n ≤ C0)), if_neg h0]

/-- The leftmost/rightmost scan over a row of the rectangle's band finds
exactly `(C0, C1)`. -/
theorem rect_edgeScan (W H R0 R1 C0 C1 cr cg cb : ℕ) (hC : C0 ≤ C1) (hCW : C1 < W)
    (y : ℕ) (hy0 : R0 ≤ y) (hy1 : y ≤ R1) :
    (List.range W).foldl (edgeScanStep (rectImage W H R0 R1 C0 C1 cr cg cb) y)
      ((W : ℤ), (-1 : ℤ)) = ((C0 : ℤ), (C1 : ℤ)) := by
  rw [rect_edgeScan_aux W H R0 R1 C0 C1 cr cg cb hC hCW y hy0 hy1 W]
  rcases Nat.lt_or_ge C1 (W - 1) with hw | hw
  · rw [if_neg (by omega), if_neg (by omega)]
  · have hWeq : W = C1 + 1 := by omega
    rw [if_neg (by omega), if_pos (by omega)]
    subst hWeq
    simp only [Prod.mk.injEq]
    constructor
    · trivial
    · push_cast
      ring

/-- Generic: the candidate scan only ever appends to its accumulator. -/
theorem scanAux_append (img : Image) :
    ∀ (n : ℕ) (acc : List (ℕ × ℚ)), ∃ t, scanAux img n acc = acc ++ t := by
  intro n
  induction n with
  | zero => exact fun acc => ⟨[], by simp [scanAux]⟩
  | succ n ih =>
    intro acc
    simp only [scanAux]
    split
    · split
      · exact ⟨_, rfl⟩
      · obtain ⟨t, ht⟩ :=
          ih (acc ++ [(n, (rowStats img n).2 / ((rowStats img n).1 : ℚ))])
        exact ⟨(n, (rowStats img n).2 / ((rowStats img n).1 : ℚ)) :: t, by
          rw [ht, List.append_assoc]
          rfl⟩
    · exact ih acc

/-- Generic: if every nonempty row of the image has average darkness `d`,
then every candidate the scan collects carries darkness `d`. -/
theorem scanAux_darkness (img : Image) (d : ℚ)
    (hrow : ∀ y, 0 < (rowStats img y).1 →
      (rowStats img y).2 / ((rowStats img y).1 : ℚ) = d) :
    ∀ (n : ℕ) (acc : List (ℕ × ℚ)),
      (∀ c ∈ acc, c.2 = d) → ∀ c ∈ scanAux img n acc, c.2 = d := by
  intro n
  induction n with
  | zero =>
    intro acc h
    simpa [scanAux] using h
  | succ n ih =>
    intro acc h
    simp only [scanAux]
    split
    · rename_i h1
      have hacc2 : ∀ c ∈ acc ++ [(n, (rowStats img n).2 / ((rowStats img n).1 : ℚ))],
          c.2 = d := by
        intro c hc
        rcases List.mem_append.mp hc with hc | hc
        · exact h c hc
        · rw [List.mem_singleton.mp hc]
          exact hrow n h1
      split
      · exact hacc2
      · exact ih _ hacc2
    · exact ih acc h

/-- Generic: rows at or above index `k` that are empty contribute nothing,
so the scan from any height `k + m` equals the scan from `k`. -/
theorem scanAux_skip (img : Image) (k : ℕ)
    (hempty : ∀ y, k ≤ y → (rowStats img y).1 = 0) :
    ∀ m, scanAux img (k + m) [] = scanAux img k [] := by
  intro m
  induction m with
  | zero => rfl
  | succ m ih =>
    have hstep : k + (m + 1) = (k + m) + 1 := rfl
    rw [hstep]
    simp only [scanAux]
    rw [if_neg (by rw [hempty (k + m) (Nat.le_add_right k m)]; omega)]
    exact ih

/-- Generic: the darkest-row fold keeps its seed when no element is
strictly darker. -/
theorem foldl_darkestStep_le (b : ℕ × ℚ) :
    ∀ l : List (ℕ × ℚ), (∀ c ∈ l, c.2 ≤ b.2) → l.foldl darkestStep b = b := by
  intro l
  induction l with
  | nil => intro _; rfl
  | cons c l ih =>
    intro h
    have hc : ¬ (b.2 < c.2) := not_lt.mpr (h c (List.mem_cons_self c l))
    simp only [List.foldl_cons, darkestStep, if_neg hc]
    exact ih (fun c hc => h c (List.mem_cons_of_mem _ hc))

/-- C4: on a W×H raster that is fully transparent except a solid opaque
rectangle spanning rows `[R0,R1]` and columns `[C0,C1]` (`R1` the lowest
solid row), the detector returns `yPadding = H−R1−1`,
`contentWidth = C1−C0+1` and `xOffset = (C0+C1)/2 − W/2`: every solid row
has the same average darkness, so the bottom-up scan's first candidate —
row `R1` — is kept as the darkest row. -/
theorem anchor_roundtrip_c4 (W H R0 R1 C0 C1 cr cg cb : ℕ)
    (hR : R0 ≤ R1) (hRH : R1 < H) (hC : C0 ≤ C1) (hCW : C1 < W) :
    detectTreeContentPosition (rectImage W H R0 R1 C0 C1 cr cg cb) =
      { xOffset := ((C0 : ℚ) + (C1 : ℚ)) / 2 - (W : ℚ) / 2
        yPadding := (H : ℤ) - (R1 : ℤ) - 1
        contentWidth := (C1 : ℤ) - (C0 : ℤ) + 1 } := by
  have hK : 0 < C1 + 1 - C0 := by omega
  have hKQ : ((C1 + 1 - C0 : ℕ) : ℚ) ≠ 0 := Nat.cast_ne_zero.mpr (by omega)
  have hd : ∀ y, 0 < (rowStats (rectImage W H R0 R1 C0 C1 cr cg cb) y).1 →
      (rowStats (rectImage W H R0 R1 C0 C1 cr cg cb) y).2 /
        ((rowStats (rectImage W H R0 R1 C0 C1 cr cg cb) y).1 : ℚ) = rectDark cr cg cb := by
    intro y hy
    by_cases hband : R0 ≤ y ∧ y ≤ R1
    · rw [rect_rowStats_in W H R0 R1 C0 C1 cr cg cb hC hCW y hband.1 hband.2]
      exact mul_div_cancel_left₀ _ hKQ
    · rw [rect_rowStats_out W H R0 R1 C0 C1 cr cg cb y (by omega)] at hy
      exact absurd hy (by simp)
  have hempty : ∀ y, R1 + 1 ≤ y →
      (rowStats (rectImage W H R0 R1 C0 C1 cr cg cb) y).1 = 0 := by
    intro y hy
    rw [rect_rowStats_out W H R0 R1 C0 C1 cr cg cb y (Or.inr (by omega))]
  have hcr : candidateRows (rectImage W H R0 R1 C0 C1 cr cg cb) =
      scanAux (rectImage W H R0 R1 C0 C1 cr cg cb) (R1 + 1) [] := by
    have hH : (rectImage W H R0 R1 C0 C1 cr cg cb).height = H := rfl
    unfold candidateRows
    rw [hH]
    have hsum : (R1 + 1) + (H - R1 - 1) = H := by omega
    have hskip := scanAux_skip _ (R1 + 1) hempty (H - R1 - 1)
    rwa [hsum] at hskip
  have hrowR1 := rect_rowStats_in W H R0 R1 C0 C1 cr cg cb hC hCW R1 hR (le_refl R1)
  have hform : ∃ t, candidateRows (rectImage W H R0 R1 C0 C1 cr cg cb) =
      (R1, rectDark cr cg cb) :: t ∧ ∀ c ∈ t, c.2 = rectDark cr cg cb := by
    rw [hcr]
    simp only [scanAux, hrowR1]
    rw [if_pos hK, mul_div_cancel_left₀ _ hKQ]
    split
    · exact ⟨[], by simp, by simp⟩
    · obtain ⟨t0, ht0⟩ :=
        scanAux_append (rectImage W H R0 R1 C0 C1 cr cg cb) R1
          ([] ++ [(R1, rectDark cr cg cb)])
      refine ⟨t0, by rw [ht0]; simp, ?_⟩
      intro c hc
      have hacc : ∀ c ∈ ([] ++ [(R1, rectDark cr cg cb)] : List (ℕ × ℚ)),
          c.2 = rectDark cr cg cb := by
        intro c hc
        simp only [List.nil_append, List.mem_singleton] at hc
        rw [hc]
      exact scanAux_darkness (rectImage W H R0 R1 C0 C1 cr cg cb)
        (rectDark cr cg cb) hd R1 ([] ++ [(R1, rectDark cr cg cb)]) hacc c
        (by rw [ht0]; exact List.mem_append.mpr (Or.inr hc))
  obtain ⟨t, hceq, ht⟩ := hform
  have hdark : ((R1, rectDark cr cg cb) :: t).foldl darkestStep (R1, rectDark cr cg cb) =
      (R1, rectDark cr cg cb) := by
    apply foldl_darkestStep_le
    intro c hc
    rcases List.mem_cons.mp hc with h | h
    · rw [h]
    · exact (ht c h).le
  unfold detectTreeContentPosition
  split
  · rename_i heq
    rw [hceq] at heq
    exact absurd heq (by simp)
  · rename_i first rest heq
    rw [hceq] at heq
    injection heq with h1 h2
    subst h1
    subst h2
    rw [hdark]
    have hW : (rectImage W H R0 R1 C0 C1 cr cg cb).width = W := rfl
    have hH : (rectImage W H R0 R1 C0 C1 cr cg cb).height = H := rfl
    rw [hW, hH]
    simp only [rect_edgeScan W H R0 R1 C0 C1 cr cg cb hC hCW R1 hR (le_refl R1)]
    simp only [ContentAnchor.mk.injEq]
    refine ⟨?_, ?_, ?_⟩
    · push_cast
      ring
    · trivial
    · trivial

/-- C4, witness on the concrete 4×5 raster with the solid rectangle
`rows [1,3] × columns [1,2]` of colour `(10,20,30)`. -/
theorem anchor_roundtrip_c4_witness :
    detectTreeContentPosition (rectImage 4 5 1 3 1 2 10 20 30) =
      { xOffset := ((1 : ℚ) + (2 : ℚ)) / 2 - (4 : ℚ) / 2
        yPadding := (5 : ℤ) - (3 : ℤ) - 1
        contentWidth := (2 : ℤ) - (1 : ℤ) + 1 } :=
  anchor_roundtrip_c4 4 5 1 3 1 2 10 20 30 (by decide) (by decide) (by decide) (by decide)

/-- C7 counterexample: the 30% bound limits the number of *candidate* rows
(rows containing a solid pixel), not which rows are examined or selected.
On a 1×10 raster whose only opaque pixel is in the top row (`y = 0`), the
scan walks through all nine transparent bottom rows and selects row 0 as
the anchor (`yPadding = 9`), although the bottom-30% band is rows 7–9: the
selected row `H−1−yPadding = 0` lies strictly above row 7. -/
theorem anchor_scan_c7_counterexample :
    detectTreeContentPosition topRowImage =
      { xOffset := -1/2, yPadding := 9, contentWidth := 1 } ∧
    (topRowImage.height : ℤ) - 1 - (detectTreeContentPosition topRowImage).yPadding < 7 := by
  constructor
  · decide
  · decide

/-- C7 amended: the scan walks rows from `H−1` upward and bounds its work
by candidate count, not row position — it stops once more than `0.3·H`
candidate rows (rows with a pixel of alpha > 245) have been collected, so
at most `⌊0.3·H⌋ + 1` candidates are ever considered; when transparent
rows intervene, examined and selected rows may lie above the bottom 30%
of the image.  Stated bound: the collected candidate list never exceeds
`0.3·H + 1` entries. -/
theorem anchor_scan_c7_amended (img : Image) :
    ((candidateRows img).length : ℚ) ≤ (img.height : ℚ) * (3/10) + 1 := by
  have aux : ∀ (n : ℕ) (acc : List (ℕ × ℚ)),
      ((acc.length : ℚ) ≤ (img.height : ℚ) * (3/10)) →
      ((scanAux img n acc).length : ℚ) ≤ (img.height : ℚ) * (3/10) + 1 := by
    intro n
    induction n with
    | zero =>
      intro acc h
      simpa [scanAux] using le_trans h (by linarith)
    | succ n ih =>
      intro acc h
      simp only [scanAux]
      split
      · split
        · push_cast [List.length_append, List.length_singleton]
          linarith
        · rename_i hbr
          rw [not_lt] at hbr
          exact ih _ hbr
      · exact ih acc h
  have h0 : (([] : List (ℕ × ℚ)).length : ℚ) ≤ (img.height : ℚ) * (3/10) := by
    simp
  exact aux img.height [] h0

/-- C8: with the configured `tileWidth=400, grassHeight=60, soilHeight=160`,
`calculateCanvasDimensions 3` returns a 1840×1840 square canvas, and
`generateGridPositions 1 1840` returns the single position
`gridX=0, gridY=0, pixelX=920, pixelY=700`. -/
theorem concrete_scenario_c8 :
    calculateCanvasDimensions 3 = ((1840 : ℚ), (1840 : ℚ)) ∧
    generateGridPositions 1 1840 =
      [{ gridX := 0, gridY := 0, pixelX := 920, pixelY := 700 }] := by
  constructor
  · simp only [calculateCanvasDimensions, GRID_CONFIG, SCALE, max_def]
    norm_num
  · decide
